import Mathlib

/-!
Verification development for the `text_agent_backend` service.

Each section embeds one component of the repository as executable Lean
definitions (Python floats are modelled as exact rationals `ℚ`, Python
`datetime` values as day ordinals with a seconds-of-day component, the
Google-Sheets ledger as a list of rows, the Base 1 JSON run store and its
documents directory as explicit state records), and the theorems at the end
settle the specification claims against those definitions.
-/

/-! ## Shared helpers: Python string primitives -/

/-- The whitespace characters removed by Python's `str.strip()`. -/
def pyIsSpace (c : Char) : Bool :=
  c = ' ' ∨ c = '\t' ∨ c = '\n' ∨ c = '\r' ∨ c = '\x0b' ∨ c = '\x0c'

/-- Python `str.strip()`: drop leading and trailing whitespace. -/
def pyStrip (s : String) : String :=
  ⟨(s.data.dropWhile pyIsSpace).reverse.dropWhile pyIsSpace |>.reverse⟩

/-- ASCII lower-casing of one character, as Python `str.lower()` acts on the
ASCII range (all strings compared case-insensitively in this code are ASCII). -/
def asciiLowerChar (c : Char) : Char :=
  if 'A' ≤ c ∧ c ≤ 'Z' then Char.ofNat (c.toNat + 32) else c

/-- ASCII `str.lower()`. -/
def asciiLower (s : String) : String :=
  ⟨s.data.map asciiLowerChar⟩

/-- Decimal digit character for `n < 10` (the range used by decimal printing). -/
def decDigitChar (n : Nat) : Char :=
  Char.ofNat (48 + n)

/-- Fuel-driven decimal printing of a natural number, most significant digit
first; `fuel = n + 1` always suffices. -/
def natDecimalAux : Nat → Nat → List Char
  | 0, _ => []
  | fuel + 1, n =>
    if n < 10 then [decDigitChar n]
    else natDecimalAux fuel (n / 10) ++ [decDigitChar (n % 10)]

/-- Decimal representation of a natural number, as Python `str(n)` for
`n ≥ 0` and as the digit part of formatted counters. -/
def natDecimal (n : Nat) : String :=
  ⟨natDecimalAux (n + 1) n⟩

/-- Numeric value of a decimal digit character. -/
def decCharVal (c : Char) : Nat := c.toNat - 48

/-- Decode a big-endian list of decimal digit characters back to a number. -/
def decodeDecimal (l : List Char) : Nat :=
  l.foldl (fun acc c => acc * 10 + decCharVal c) 0

theorem decodeDecimal_append_singleton (l : List Char) (c : Char) :
    decodeDecimal (l ++ [c]) = decodeDecimal l * 10 + decCharVal c := by
  simp [decodeDecimal]

theorem decCharVal_decDigitChar {n : Nat} (h : n < 10) :
    decCharVal (decDigitChar n) = n := by
  interval_cases n <;> rfl

theorem decodeDecimal_natDecimalAux :
    ∀ (fuel n : Nat), n < 10 ^ fuel →
      decodeDecimal (natDecimalAux fuel n) = n := by
  intro fuel
  induction fuel with
  | zero =>
    intro n h
    simp at h
    simp [h, natDecimalAux, decodeDecimal]
  | succ f ih =>
    intro n h
    by_cases h10 : n < 10
    · simp [natDecimalAux, h10, decodeDecimal, decCharVal_decDigitChar h10]
    · have hdiv : n / 10 < 10 ^ f := by
        rw [Nat.div_lt_iff_lt_mul (by norm_num)]
        calc n < 10 ^ (f + 1) := h
          _ = 10 ^ f * 10 := by ring
      rw [natDecimalAux]
      simp only [h10, if_false]
      rw [decodeDecimal_append_singleton, ih _ hdiv,
        decCharVal_decDigitChar (Nat.mod_lt _ (by norm_num))]
      omega

theorem lt_ten_pow_succ_self (n : Nat) : n < 10 ^ (n + 1) := by
  calc n < 2 ^ n := Nat.lt_two_pow n
    _ ≤ 10 ^ n := Nat.pow_le_pow_left (by norm_num) n
    _ ≤ 10 ^ (n + 1) := Nat.pow_le_pow_right (by norm_num) (Nat.le_succ n)

theorem decodeDecimal_natDecimal (n : Nat) :
    decodeDecimal (natDecimal n).data = n :=
  decodeDecimal_natDecimalAux (n + 1) n (lt_ten_pow_succ_self n)

theorem natDecimal_injective : Function.Injective natDecimal := by
  intro a b h
  have : decodeDecimal (natDecimal a).data = decodeDecimal (natDecimal b).data := by
    rw [h]
  rwa [decodeDecimal_natDecimal, decodeDecimal_natDecimal] at this

/-! ## One-month-savings ledger: invoice rows written by `log_invoice_to_sheets`
(`tools/one_month_savings.py`).  Monetary amounts are Python floats in the
source; they are modelled as exact rationals.  The `f"${x:.2f}"` currency
formatting of the sheet cells is not modelled; the claims are about the
numeric values placed in the cells. -/

/-- One entry of `invoice_data["line_items"]`. -/
structure LineItem where
  solutionLabel : String
  savingsAmount : ℚ
deriving DecidableEq, Repr

/-- One row appended to the ledger sheet: columns A–G. -/
structure InvoiceRowValues where
  member : String
  solution : String
  savings : ℚ
  gst : ℚ
  total : ℚ
  invoiceNumber : String
  dueDate : String
deriving DecidableEq, Repr

/-- The rows `log_invoice_to_sheets` prepares, one per line item:
`gst = savings_amount * 0.1 / 1.1`, `total = savings_amount + gst`,
the solution label stripped of surrounding whitespace. -/
def log_invoice_rows (businessName invoiceNumber dueDate : String)
    (lineItems : List LineItem) : List InvoiceRowValues :=
  lineItems.map fun item =>
    let gst : ℚ := item.savingsAmount * 0.1 / 1.1
    let total : ℚ := item.savingsAmount + gst
    { member := businessName
      solution := pyStrip item.solutionLabel
      savings := item.savingsAmount
      gst := gst
      total := total
      invoiceNumber := invoiceNumber
      dueDate := dueDate }

/-- Helper: the two decimal literals used by the GST computation, as exact
rationals. -/
theorem rat_literal_tenth : (0.1 : ℚ) = 1 / 10 := by norm_num

theorem rat_literal_eleven_tenths : (1.1 : ℚ) = 11 / 10 := by norm_num

/-- C1 counterexample: for the line item with savings amount 110 the code
writes GST 10 and total 120, which are not `110 * 0.1` and `110 * 1.1`. -/
theorem log_invoice_rows_not_exclusive_gst :
    (log_invoice_rows "Biz" "RA1000" "2025-01-01"
        [⟨"Solar", 110⟩]).map (fun r => (r.gst, r.total)) = [(10, 120)]
    ∧ ¬ ((10 : ℚ) = 110 * 0.1 ∧ (120 : ℚ) = 110 * 1.1) := by
  constructor
  · simp only [log_invoice_rows, List.map_cons, List.map_nil]
    norm_num
  · intro ⟨h, _⟩
    norm_num at h

/-- C1 (amended): for every line item the GST written is
`a * 0.1 / 1.1 = a / 11` and the total written is `a + GST = a * 12 / 11`. -/
theorem log_invoice_rows_gst_total_values :
    ∀ (bn inv dd : String) (items : List LineItem),
      (log_invoice_rows bn inv dd items).map (fun r => (r.gst, r.total))
        = items.map fun i => (i.savingsAmount / 11, i.savingsAmount * 12 / 11) := by
  intro bn inv dd items
  induction items with
  | nil => rfl
  | cons i rest ih =>
    simp only [log_invoice_rows, List.map_cons] at ih ⊢
    rw [ih]
    congr 1
    rw [rat_literal_tenth, rat_literal_eleven_tenths]
    simp only [Prod.mk.injEq]
    constructor <;> ring

/-- C2: every row written has GST `a * 0.1 / 1.1` (equivalently `a / 11`) and
total `a + GST` (equivalently `a * 12 / 11`); at `a = 110` the row carries
GST 10 and total 120. -/
theorem log_invoice_rows_tax_inclusive_gst :
    (∀ (bn inv dd : String) (items : List LineItem),
      ∀ r ∈ log_invoice_rows bn inv dd items,
        r.gst = r.savings * 0.1 / 1.1 ∧ r.gst = r.savings / 11
          ∧ r.total = r.savings + r.gst ∧ r.total = r.savings * 12 / 11)
    ∧ (log_invoice_rows "Biz" "RA1000" "2025-01-01"
        [⟨"Solar", 110⟩]).map (fun r => (r.gst, r.total)) = [(10, 120)] := by
  constructor
  · intro bn inv dd items r hr
    simp only [log_invoice_rows, List.mem_map] at hr
    obtain ⟨i, _, rfl⟩ := hr
    refine ⟨rfl, ?_, rfl, ?_⟩ <;>
      · simp only [rat_literal_tenth, rat_literal_eleven_tenths]
        ring
  · simp only [log_invoice_rows, List.map_cons, List.map_nil]
    norm_num

/-- C2 witness: the row membership hypothesis discharged at the concrete
110-dollar line item. -/
theorem log_invoice_rows_tax_inclusive_gst_witness :
    ∃ r ∈ log_invoice_rows "Biz" "RA1000" "2025-01-01" [⟨"Solar", 110⟩],
      r.gst = r.savings * 0.1 / 1.1 ∧ r.gst = r.savings / 11
        ∧ r.total = r.savings + r.gst ∧ r.total = r.savings * 12 / 11 := by
  have hm : InvoiceRowValues.mk "Biz" (pyStrip "Solar") 110 (110 * 0.1 / 1.1)
        (110 + 110 * 0.1 / 1.1) "RA1000" "2025-01-01"
        ∈ log_invoice_rows "Biz" "RA1000" "2025-01-01" [⟨"Solar", 110⟩] := by
    simp [log_invoice_rows]
  exact ⟨_, hm, log_invoice_rows_tax_inclusive_gst.1 _ _ _ _ _ hm⟩

/-! ## Invoice numbering: `get_next_sequential_invoice_number`
(`tools/one_month_savings.py`).  The ledger is modelled as the list of rows
returned for column F (`SHEET_NAME!F2:F`): each row is a (possibly empty)
list of cell strings.  `re.search(r'RA(\d+)', s)` is modelled by
`raMatch?`, which finds the leftmost occurrence of `R`, `A`, digit and
takes the maximal digit run. -/

/-- Model of `re.search(r'RA(\d+)', s)`: value of the capture group of the leftmost
match, if any (digits per `\d` restricted to ASCII, the only digits the
ledger holds). -/
def raHeadMatch? (l : List Char) : Option Nat :=
  match l with
  | 'R' :: 'A' :: d :: tail =>
    if d.isDigit then some (decodeDecimal ((d :: tail).takeWhile Char.isDigit))
    else none
  | _ => none

def raMatch? : List Char → Option Nat
  | [] => none
  | c :: rest =>
    match raHeadMatch? (c :: rest) with
    | some n => some n
    | none => raMatch? rest

/-- The per-row treatment of the reading loop: skip empty rows, strip the
first cell, skip blank cells, otherwise search for `RA(\d+)`. -/
def cellSuffix? (row : List String) : Option Nat :=
  match row with
  | [] => none
  | cell :: _ =>
    let invNum := pyStrip cell
    if invNum = "" then none else raMatch? invNum.data

/-- The numeric part of the next invoice number: the running maximum over all
rows, plus one, floored at 1000. -/
def nextInvoiceNumberValue (values : List (List String)) : Nat :=
  let maxNumber := values.foldl
    (fun mx row =>
      match cellSuffix? row with
      | some n => max mx n
      | none => mx) 0
  let nextNumber := maxNumber + 1
  if nextNumber < 1000 then 1000 else nextNumber

/-- Format `f"{n:04d}"`: decimal, left-padded with zeros to at least four digits. -/
def padDecimal4 (n : Nat) : String :=
  ⟨List.replicate (4 - (natDecimal n).length) '0' ++ (natDecimal n).data⟩

/-- Function `get_next_sequential_invoice_number` on the Google-Sheets path:
`f"RA{next_number:04d}"`. -/
def get_next_sequential_invoice_number (values : List (List String)) : String :=
  "RA" ++ padDecimal4 (nextInvoiceNumberValue values)

/-- Modelled from the spec's words, for comparison with the implementation:
the next number is `(maximum existing numeric suffix across ALL businesses)
+ 1`, floored at 1000, printed as `RA` plus the 4-digit-padded number. -/
def specNextInvoiceNumber (values : List (List String)) : String :=
  "RA" ++ padDecimal4 (max 1000 ((values.filterMap cellSuffix?).foldr max 0 + 1))

theorem foldl_cellSuffix_eq_max (values : List (List String)) :
    ∀ a : Nat,
      values.foldl
        (fun mx row =>
          match cellSuffix? row with
          | some n => max mx n
          | none => mx) a
      = max a ((values.filterMap cellSuffix?).foldr max 0) := by
  induction values with
  | nil => intro a; simp
  | cons row rest ih =>
    intro a
    simp only [List.foldl_cons, List.filterMap_cons]
    cases h : cellSuffix? row with
    | none => simp [h, ih]
    | some n =>
      simp only [h, List.foldr_cons, ih (max a n)]
      omega

theorem nextInvoiceNumberValue_eq_spec (values : List (List String)) :
    nextInvoiceNumberValue values
      = max 1000 ((values.filterMap cellSuffix?).foldr max 0 + 1) := by
  simp only [nextInvoiceNumberValue, foldl_cellSuffix_eq_max values 0]
  split_ifs <;> omega

theorem le_foldr_max_of_mem {l : List Nat} {n : Nat} (h : n ∈ l) :
    n ≤ l.foldr max 0 := by
  induction l with
  | nil => cases h
  | cons x xs ih =>
    rcases List.mem_cons.mp h with rfl | hx
    · simp
    · simp only [List.foldr_cons]
      exact le_max_of_le_right (ih hx)

/-- C3: the next sequential invoice number is `RA` plus (one more than the
maximum `RA(\d+)` suffix over all rows, floored at 1000, 4-digit padded); its
numeric part strictly exceeds every suffix present in the ledger, duplicated
rows do not change the result, `[RA1007, RA1007, RA1003]` yields `RA1008`,
and the empty ledger yields `RA1000`. -/
theorem get_next_sequential_invoice_number_correct :
    (∀ values : List (List String),
      get_next_sequential_invoice_number values = specNextInvoiceNumber values)
    ∧ (∀ (values : List (List String)) (row : List String) (n : Nat),
        row ∈ values → cellSuffix? row = some n →
          n < nextInvoiceNumberValue values)
    ∧ (∀ (row : List String) (values : List (List String)),
        get_next_sequential_invoice_number (row :: row :: values)
          = get_next_sequential_invoice_number (row :: values))
    ∧ get_next_sequential_invoice_number [["RA1007"], ["RA1007"], ["RA1003"]]
        = "RA1008"
    ∧ get_next_sequential_invoice_number [] = "RA1000" := by
  refine ⟨?_, ?_, ?_, by decide, by decide⟩
  · intro values
    unfold get_next_sequential_invoice_number specNextInvoiceNumber
    rw [nextInvoiceNumberValue_eq_spec]
  · intro values row n hrow hcell
    rw [nextInvoiceNumberValue_eq_spec]
    have hmem : n ∈ values.filterMap cellSuffix? :=
      List.mem_filterMap.mpr ⟨row, hrow, hcell⟩
    have := le_foldr_max_of_mem hmem
    omega
  · intro row values
    unfold get_next_sequential_invoice_number
    have h := nextInvoiceNumberValue_eq_spec (row :: row :: values)
    have h2 := nextInvoiceNumberValue_eq_spec (row :: values)
    refine congrArg (fun k => "RA" ++ padDecimal4 k) ?_
    rw [h, h2]
    simp only [List.filterMap_cons]
    cases hc : cellSuffix? row with
    | none => rfl
    | some n =>
      simp only [List.foldr_cons, ← max_assoc, max_self]

/-- C3 witness: freshness instantiated on the concrete ledger
`[[RA1007], [RA1003]]` at the suffix 1007. -/
theorem get_next_sequential_invoice_number_correct_witness :
    1007 < nextInvoiceNumberValue [["RA1007"], ["RA1003"]] :=
  get_next_sequential_invoice_number_correct.2.1
    [["RA1007"], ["RA1003"]] ["RA1007"] 1007 (by decide) (by decide)

/-! ## Task history logging (`utils/task_history.py`).  The database is
modelled as the list of `TaskHistory` rows in insertion order; a successful
`db.add` + `db.commit` appends one row.  Python values passed for `old`/`new`
are modelled by `PyVal` with Python `str()` as `PyVal.toStr`. -/

/-- A Python value handed to `log_field_change` (`None`, a string, or an
integer — the value kinds tracked task fields take). -/
inductive PyVal where
  | none : PyVal
  | str (s : String) : PyVal
  | int (n : Int) : PyVal
deriving DecidableEq, Repr

/-- Python `str()` on a `PyVal`. -/
def PyVal.toStr : PyVal → String
  | .none => "None"
  | .str s => s
  | .int n => if n < 0 then "-" ++ natDecimal n.natAbs else natDecimal n.toNat

/-- Model of `str(v) if v is not None else None`. -/
def PyVal.strOrNone (v : PyVal) : Option String :=
  if v = .none then Option.none else some v.toStr

/-- One `TaskHistory` ORM row. -/
structure TaskHistoryRow where
  taskId : Nat
  userEmail : String
  action : String
  field : Option String
  oldValue : Option String
  newValue : Option String
deriving DecidableEq, Repr

/-- Function `log_field_change`: skip when `old == new`, else insert one
`field_updated` row. -/
def log_field_change (hist : List TaskHistoryRow) (taskId : Nat)
    (userEmail field : String) (old new : PyVal) : List TaskHistoryRow :=
  if old = new then hist
  else hist ++ [TaskHistoryRow.mk taskId userEmail "field_updated"
    (some field) old.strOrNone new.strOrNone]

/-- Function `log_status_change`: skip when unchanged, else insert one
`status_changed` row. -/
def log_status_change (hist : List TaskHistoryRow) (taskId : Nat)
    (userEmail oldStatus newStatus : String) : List TaskHistoryRow :=
  if oldStatus = newStatus then hist
  else hist ++ [TaskHistoryRow.mk taskId userEmail "status_changed"
    (some "status") (some oldStatus) (some newStatus)]

/-- C5: a no-op change inserts no row; a real change inserts exactly one row
with the matching action and the string representations of old and new. -/
theorem log_change_rows_exact :
    ∀ (hist : List TaskHistoryRow) (taskId : Nat) (userEmail field : String)
      (old new : PyVal) (oldS newS : String),
      (old = new → log_field_change hist taskId userEmail field old new = hist)
      ∧ (old ≠ new →
          log_field_change hist taskId userEmail field old new
            = hist ++ [TaskHistoryRow.mk taskId userEmail "field_updated"
                (some field) old.strOrNone new.strOrNone])
      ∧ (oldS = newS →
          log_status_change hist taskId userEmail oldS newS = hist)
      ∧ (oldS ≠ newS →
          log_status_change hist taskId userEmail oldS newS
            = hist ++ [TaskHistoryRow.mk taskId userEmail "status_changed"
                (some "status") (some oldS) (some newS)]) := by
  intro hist taskId userEmail field old new oldS newS
  refine ⟨fun h => ?_, fun h => ?_, fun h => ?_, fun h => ?_⟩ <;>
    simp [log_field_change, log_status_change, h]

/-- C5 witness: the four hypotheses discharged at concrete old/new pairs. -/
theorem log_change_rows_exact_witness :
    (log_field_change [] 1 "u@x" "title" (.str "a") (.str "a") = [])
    ∧ (log_field_change [] 1 "u@x" "title" (.str "a") (.str "b")
        = [TaskHistoryRow.mk 1 "u@x" "field_updated" (some "title")
            (PyVal.str "a").strOrNone (PyVal.str "b").strOrNone])
    ∧ (log_status_change [] 1 "u@x" "not_started" "not_started" = [])
    ∧ (log_status_change [] 1 "u@x" "not_started" "completed"
        = [TaskHistoryRow.mk 1 "u@x" "status_changed" (some "status")
            (some "not_started") (some "completed")]) := by
  have h := log_change_rows_exact [] 1 "u@x" "title"
    (.str "a") (.str "b") "not_started" "completed"
  have h2 := log_change_rows_exact [] 1 "u@x" "title"
    (.str "a") (.str "a") "not_started" "not_started"
  exact ⟨h2.1 rfl, h.2.1 (by decide), h2.2.2.1 rfl, h.2.2.2 (by decide)⟩

/-! ## Signed-agreement supplier routing
(`tools/send_supplier_signed_agreement.py`, duplicated in
`tools/supplier_communication.py`).  The Python dicts are modelled as
association lists in insertion order; dict membership is `find?` on the key,
and the case-insensitive fallback loop is `find?` over the same order. -/

/-- One value of the mapping tables: supplier display name and address list. -/
structure SupplierInfo where
  name : String
  email : String
deriving DecidableEq, Repr

def CONTRACT_EMAIL_MAPPINGS : List (String × SupplierInfo) := [
  ("PowerMetric DMA", SupplierInfo.mk "PowerMetric" "accountmanagement@powermetric.com.au, rmorse@powermetric.com.au, data.quote@fornrg.com"),
  ("Origin C&I Electricity", SupplierInfo.mk "Origin C&I" "MIContracts@originenergy.com.au, data.quote@fornrg.com"),
  ("Origin SME Electricity", SupplierInfo.mk "Origin SME" "MIContracts@originenergy.com.au, data.quote@fornrg.com"),
  ("BlueNRG SME Electricity", SupplierInfo.mk "BlueNRG SME" "data.quote@fornrg.com"),
  ("Origin C&I Gas", SupplierInfo.mk "Origin C&I" "MIContracts@originenergy.com.au, data.quote@fornrg.com"),
  ("Momentum C&I Electricity", SupplierInfo.mk "Momentum" "contracts.administration@momentum.com.au, data.quote@fornrg.com"),
  ("CovaU SME Gas", SupplierInfo.mk "CovaU" "corp.sales@covau.com.au, data.quote@fornrg.com"),
  ("CovaU SME Electricity", SupplierInfo.mk "CovaU" "corp.sales@covau.com.au, data.quote@fornrg.com"),
  ("Veolia Waste", SupplierInfo.mk "Veolia" "ric.luiyf@veolia.com, business@acesolutions.com.au"),
  ("Alinta C&I Electricity", SupplierInfo.mk "Alinta" "Andrew.Barnes@alintaenergy.com.au, Moulee.Siriharan@alintaenergy.com.au, data.quote@fornrg.com"),
  ("Alinta C&I Gas", SupplierInfo.mk "Alinta" "Andrew.Barnes@alintaenergy.com.au, Moulee.Siriharan@alintaenergy.com.au, data.quote@fornrg.com"),
  ("Other", SupplierInfo.mk "Other" "members@acesolutions.com.au, data.quote@fornrg.com, morgan.h@acesolutions.com.au")]

def EOI_EMAIL_MAPPINGS : List (String × SupplierInfo) := [
  ("Direct Meter Agreement", SupplierInfo.mk "DMA Supplier" "data.quote@fornrg.com"),
  ("Cleaning Robot", SupplierInfo.mk "Cleaning Tech" "cleantech@supplier.com"),
  ("Inbound Digital Voice Agent", SupplierInfo.mk "Voice Tech" "voicetech@supplier.com"),
  ("Cooking Oil Used Oil", SupplierInfo.mk "Oil Recycling" "oilrecycling@supplier.com"),
  ("Referral Distribution Program", SupplierInfo.mk "Distribution Partner" "distribution@partner.com"),
  ("Solar Energy PPA", SupplierInfo.mk "Solar Energy" "data.quote@fornrg.com"),
  ("Self Managed Certificates", SupplierInfo.mk "Certificate Management" "certificates@supplier.com"),
  ("Telecommunication", SupplierInfo.mk "Telecom" "telecom@supplier.com"),
  ("Wood Pallet", SupplierInfo.mk "Wood Pallet" "woodpallet@supplier.com"),
  ("Wood Cut", SupplierInfo.mk "Wood Processing" "woodprocessing@supplier.com"),
  ("Baled Cardboard", SupplierInfo.mk "Cardboard Recycling" "cardboard@recycler.com"),
  ("Loose Cardboard", SupplierInfo.mk "Cardboard Recycling" "cardboard@recycler.com"),
  ("Large Generation Certificates Trading", SupplierInfo.mk "LGC Trading" "lgc@trading.com"),
  ("GHG Action Plan", SupplierInfo.mk "Environmental" "environment@supplier.com"),
  ("Government Incentives Vic G4", SupplierInfo.mk "Government" "government@supplier.com"),
  ("Self Managed VEECs", SupplierInfo.mk "VEEC Management" "veec@management.com"),
  ("Demand Response", SupplierInfo.mk "Demand Response" "demandresponse@supplier.com"),
  ("Waste Organic Recycling", SupplierInfo.mk "Organic Waste" "organicwaste@recycler.com"),
  ("Waste Grease Trap", SupplierInfo.mk "Grease Trap" "greasetrap@supplier.com"),
  ("Used Wax Cardboard", SupplierInfo.mk "Wax Cardboard" "waxcardboard@recycler.com"),
  ("Vic CDS Scheme", SupplierInfo.mk "CDS Scheme" "cds@scheme.com"),
  ("New Placeholder Template", SupplierInfo.mk "Template" "members@acesolutions.com.au, data.quote@fornrg.com")]

def DEFAULT_EMAIL : SupplierInfo :=
  SupplierInfo.mk "Unknown Supplier" "members@acesolutions.com.au"

/-- The table chosen from `agreement_type`. -/
def agreementMapping (agreement_type : String) : List (String × SupplierInfo) :=
  if agreement_type = "eoi" then EOI_EMAIL_MAPPINGS else CONTRACT_EMAIL_MAPPINGS

/-- Function `find_supplier_email_for_agreement`: exact key match, then
case-insensitive key match, then the default address flagged as default. -/
def find_supplier_email_for_agreement (contract_type agreement_type : String) :
    String × String × Bool :=
  match (agreementMapping agreement_type).find?
      (fun kv => kv.1 = contract_type) with
  | some kv => (kv.2.email, kv.2.name, false)
  | none =>
    match (agreementMapping agreement_type).find?
        (fun kv => asciiLower kv.1 = asciiLower contract_type) with
    | some kv => (kv.2.email, kv.2.name, false)
    | none => (DEFAULT_EMAIL.email, DEFAULT_EMAIL.name, true)

/-- C8: the lookup always yields a triple; the EOI table is used exactly for
`agreement_type = "eoi"` and the contract table otherwise; exact key match
wins first, then the first case-insensitive match, else the default address
with the default flag set; `Veolia Waste` resolves from the contract table
with `is_default = false` and falls to the default for `eoi`. -/
theorem find_supplier_email_for_agreement_routing :
    (∀ ct at1 : String, at1 ≠ "eoi" →
      find_supplier_email_for_agreement ct at1
        = find_supplier_email_for_agreement ct "contract")
    ∧ (∀ (ct at1 : String) (kv : String × SupplierInfo),
        (agreementMapping at1).find? (fun e => e.1 = ct) = some kv →
          find_supplier_email_for_agreement ct at1
            = (kv.2.email, kv.2.name, false))
    ∧ (∀ (ct at1 : String) (kv : String × SupplierInfo),
        (agreementMapping at1).find? (fun e => e.1 = ct) = none →
        (agreementMapping at1).find?
            (fun e => asciiLower e.1 = asciiLower ct) = some kv →
          find_supplier_email_for_agreement ct at1
            = (kv.2.email, kv.2.name, false))
    ∧ (∀ ct at1 : String,
        (agreementMapping at1).find?
            (fun e => asciiLower e.1 = asciiLower ct) = none →
          find_supplier_email_for_agreement ct at1
            = (DEFAULT_EMAIL.email, DEFAULT_EMAIL.name, true))
    ∧ find_supplier_email_for_agreement "Veolia Waste" "contract"
        = ("ric.luiyf@veolia.com, business@acesolutions.com.au", "Veolia", false)
    ∧ find_supplier_email_for_agreement "Veolia Waste" "eoi"
        = ("members@acesolutions.com.au", "Unknown Supplier", true) := by
  refine ⟨?_, ?_, ?_, ?_, by decide, by decide⟩
  · intro ct at1 h
    unfold find_supplier_email_for_agreement agreementMapping
    simp [h]
  · intro ct at1 kv h
    unfold find_supplier_email_for_agreement
    rw [h]
  · intro ct at1 kv h h2
    unfold find_supplier_email_for_agreement
    rw [h, h2]
  · intro ct at1 h
    have hex : (agreementMapping at1).find? (fun e => e.1 = ct) = none := by
      rw [List.find?_eq_none] at h ⊢
      intro x hx hpx
      exact h x hx (by simp_all)
    unfold find_supplier_email_for_agreement
    rw [hex, h]

/-- C8 witness: the quantified branches instantiated on concrete contract
types. -/
theorem find_supplier_email_for_agreement_routing_witness :
    (find_supplier_email_for_agreement "Veolia Waste" "anything else"
      = find_supplier_email_for_agreement "Veolia Waste" "contract")
    ∧ (find_supplier_email_for_agreement "Other" "contract"
      = ("members@acesolutions.com.au, data.quote@fornrg.com, morgan.h@acesolutions.com.au", "Other", false))
    ∧ (find_supplier_email_for_agreement "wood pallet" "eoi"
      = ("woodpallet@supplier.com", "Wood Pallet", false))
    ∧ (find_supplier_email_for_agreement "No Such Supplier" "eoi"
      = ("members@acesolutions.com.au", "Unknown Supplier", true)) :=
  ⟨find_supplier_email_for_agreement_routing.1 "Veolia Waste"
      "anything else" (by decide),
   find_supplier_email_for_agreement_routing.2.1 "Other" "contract"
      ("Other", SupplierInfo.mk "Other" "members@acesolutions.com.au, data.quote@fornrg.com, morgan.h@acesolutions.com.au")
      (by decide),
   find_supplier_email_for_agreement_routing.2.2.1 "wood pallet" "eoi"
      ("Wood Pallet", SupplierInfo.mk "Wood Pallet" "woodpallet@supplier.com")
      (by decide) (by decide),
   find_supplier_email_for_agreement_routing.2.2.2.1 "No Such Supplier" "eoi"
      (by decide)⟩

/-! ## Daily due/overdue sweep: `check_due_tasks` (`email_service.py`).
Python `datetime` values are modelled as a calendar-day ordinal plus a
second-of-day; `.date()` is the day ordinal, and `datetime.combine(today,
min.time())` is day `today` at second 0.  A notification send is modelled as
always succeeding (the claim is about which notifications are attempted and
the throttle stamp). -/

/-- A Python `datetime`: calendar-day ordinal and second of day. -/
structure PyDateTime where
  day : Int
  sec : Nat
deriving DecidableEq, Repr

/-- Python `datetime` comparison (`<`), lexicographic on (date, time of day). -/
def PyDateTime.isBefore (a b : PyDateTime) : Bool :=
  a.day < b.day ∨ (a.day = b.day ∧ a.sec < b.sec)

/-- The `Task` columns `check_due_tasks` reads and writes. -/
structure SweepTask where
  id : Nat
  dueDate : Option PyDateTime
  status : String
  assignedTo : Option String
  lastNotificationSentAt : Option PyDateTime
deriving DecidableEq, Repr

/-- The common SQL filter of both queries: due date present, status not
`completed`, assignee column not NULL. -/
def taskQueryFilter (t : SweepTask) : Bool :=
  t.dueDate.isSome && decide (t.status ≠ "completed") && t.assignedTo.isSome

/-- Test `task.due_date.date() == today`. -/
def dueDateIsToday (today : Int) (t : SweepTask) : Bool :=
  match t.dueDate with
  | some d => d.day = today
  | none => false

/-- Test of the query filter `Task.due_date < today_start`. -/
def dueBeforeTodayStart (today : Int) (t : SweepTask) : Bool :=
  match t.dueDate with
  | some d => d.isBefore ⟨today, 0⟩
  | none => false

/-- Throttle test `not task.last_notification_sent_at or
task.last_notification_sent_at.date() < today`. -/
def notifAllowedToday (today : Int) (t : SweepTask) : Bool :=
  match t.lastNotificationSentAt with
  | none => true
  | some ts => ts.day < today

/-- Membership of `due_today_filtered`. -/
def dueTodayPred (today : Int) (t : SweepTask) : Bool :=
  taskQueryFilter t && dueDateIsToday today t && notifAllowedToday today t

/-- Membership of `overdue_filtered`. -/
def overduePred (today : Int) (t : SweepTask) : Bool :=
  taskQueryFilter t && dueBeforeTodayStart today t && notifAllowedToday today t

/-- Python truthiness of `task.assigned_to` in the send loops. -/
def assigneeTruthy (t : SweepTask) : Bool :=
  match t.assignedTo with
  | none => false
  | some s => s ≠ ""

inductive NotificationKind where
  | dueToday : NotificationKind
  | overdue : NotificationKind
deriving DecidableEq, Repr

/-- One email handed to `send_notification`. -/
structure SweepNotification where
  kind : NotificationKind
  taskId : Nat
deriving DecidableEq, Repr

/-- Function `check_due_tasks`: build both filtered lists, send a notification for
each entry whose assignee is truthy, stamping
`last_notification_sent_at = now` on the tasks sent for. -/
def check_due_tasks (today : Int) (now : PyDateTime) (tasks : List SweepTask) :
    List SweepNotification × List SweepTask :=
  let dueTodayFiltered := tasks.filter (dueTodayPred today)
  let overdueFiltered := tasks.filter (overduePred today)
  let notifs :=
    (dueTodayFiltered.filter assigneeTruthy).map
      (fun t => SweepNotification.mk .dueToday t.id)
    ++ (overdueFiltered.filter assigneeTruthy).map
      (fun t => SweepNotification.mk .overdue t.id)
  let updated := tasks.map fun t =>
    if (dueTodayPred today t || overduePred today t) && assigneeTruthy t then
      { t with lastNotificationSentAt := some now }
    else t
  (notifs, updated)

theorem countP_map_nodup {α β : Type} (f : α → β) (l : List α) (a : α)
    (p : α → Bool) (hnd : (l.map f).Nodup) (ha : a ∈ l)
    (himp : ∀ b ∈ l, p b = true → f b = f a) :
    l.countP p = if p a then 1 else 0 := by
  induction l with
  | nil => cases ha
  | cons u rest ih =>
    simp only [List.map_cons, List.nodup_cons] at hnd
    rw [List.countP_cons]
    rcases List.mem_cons.mp ha with rfl | hmem
    · have hz : rest.countP p = 0 := by
        rw [List.countP_eq_zero]
        intro v hv hpv
        exact hnd.1 (himp v (List.mem_cons_of_mem _ hv) hpv ▸
          List.mem_map_of_mem f hv)
      rw [hz]
      omega
    · have hpu : p u = false := by
        by_contra hc
        rw [Bool.not_eq_false] at hc
        exact hnd.1 (himp u (List.mem_cons_self u rest) hc ▸
          List.mem_map_of_mem f hmem)
      rw [hpu, ih hnd.2 hmem
        (fun b hb hpb => himp b (List.mem_cons_of_mem _ hb) hpb)]
      simp

theorem countP_check_due_tasks (today : Int) (now : PyDateTime)
    (tasks : List SweepTask) (p : SweepNotification → Bool) :
    ((check_due_tasks today now tasks).1).countP p
      = tasks.countP (fun u =>
          (p (SweepNotification.mk .dueToday u.id) && assigneeTruthy u)
            && dueTodayPred today u)
        + tasks.countP (fun u =>
          (p (SweepNotification.mk .overdue u.id) && assigneeTruthy u)
            && overduePred today u) := by
  simp only [check_due_tasks, List.countP_append, List.countP_map,
    List.countP_filter, Function.comp]

theorem due_today_not_before_start (today : Int) (t : SweepTask)
    (h : dueDateIsToday today t = true) :
    dueBeforeTodayStart today t = false := by
  unfold dueDateIsToday at h
  unfold dueBeforeTodayStart PyDateTime.isBefore
  cases hd : t.dueDate with
  | none => rfl
  | some d =>
    rw [hd] at h
    simp only [decide_eq_true_eq] at h
    simp only [decide_eq_false_iff_not]
    omega

/-- C4: a task whose last notification was stamped today receives no due-today
and no overdue notification from one sweep; a qualifying task (query filter,
truthy assignee, last notification absent or on an earlier day) that is due
today (resp. overdue) receives exactly one notification of that category and
none of the other, and its `last_notification_sent_at` is set to `now`. -/
theorem check_due_tasks_notifications :
    ∀ (today : Int) (now : PyDateTime) (tasks : List SweepTask) (t : SweepTask),
      (tasks.map (fun u => u.id)).Nodup → t ∈ tasks →
      ((∃ ts, t.lastNotificationSentAt = some ts ∧ ts.day = today) →
        (check_due_tasks today now tasks).1.countP
          (fun n => n.taskId = t.id) = 0)
      ∧ (taskQueryFilter t = true → assigneeTruthy t = true →
          notifAllowedToday today t = true → dueDateIsToday today t = true →
          (check_due_tasks today now tasks).1.countP
              (fun n => n = SweepNotification.mk .dueToday t.id) = 1
          ∧ (check_due_tasks today now tasks).1.countP
              (fun n => n = SweepNotification.mk .overdue t.id) = 0
          ∧ { t with lastNotificationSentAt := some now }
              ∈ (check_due_tasks today now tasks).2)
      ∧ (taskQueryFilter t = true → assigneeTruthy t = true →
          notifAllowedToday today t = true →
          dueBeforeTodayStart today t = true →
          (check_due_tasks today now tasks).1.countP
              (fun n => n = SweepNotification.mk .overdue t.id) = 1
          ∧ (check_due_tasks today now tasks).1.countP
              (fun n => n = SweepNotification.mk .dueToday t.id) = 0
          ∧ { t with lastNotificationSentAt := some now }
              ∈ (check_due_tasks today now tasks).2) := by
  intro today now tasks t hnd ht
  refine ⟨?_, ?_, ?_⟩
  · rintro ⟨ts, hts, htoday⟩
    have hallow : notifAllowedToday today t = false := by
      unfold notifAllowedToday
      rw [hts]
      simp
      omega
    rw [countP_check_due_tasks]
    have h1 := countP_map_nodup (fun u => u.id) tasks t
      (fun u => (decide ((SweepNotification.mk .dueToday u.id).taskId = t.id)
        && assigneeTruthy u) && dueTodayPred today u) hnd ht
      (by intro b _ hb; simp at hb; exact hb.1.1)
    have h2 := countP_map_nodup (fun u => u.id) tasks t
      (fun u => (decide ((SweepNotification.mk .overdue u.id).taskId = t.id)
        && assigneeTruthy u) && overduePred today u) hnd ht
      (by intro b _ hb; simp at hb; exact hb.1.1)
    rw [h1, h2]
    simp [dueTodayPred, overduePred, hallow]
  · intro hq ha hn hd
    have hover : overduePred today t = false := by
      simp [overduePred, due_today_not_before_start today t hd]
    refine ⟨?_, ?_, ?_⟩
    · rw [countP_check_due_tasks]
      have h1 := countP_map_nodup (fun u => u.id) tasks t
        (fun u => (decide (SweepNotification.mk .dueToday u.id
            = SweepNotification.mk .dueToday t.id)
          && assigneeTruthy u) && dueTodayPred today u) hnd ht
        (by intro b _ hb; simp at hb; exact hb.1.1)
      have h2 : tasks.countP
          (fun u => (decide (SweepNotification.mk .overdue u.id
              = SweepNotification.mk .dueToday t.id)
            && assigneeTruthy u) && overduePred today u) = 0 := by
        rw [List.countP_eq_zero]
        intro v _ hv
        simp at hv
      rw [h1, h2]
      simp [dueTodayPred, hq, ha, hn, hd]
    · rw [countP_check_due_tasks]
      have h1 : tasks.countP
          (fun u => (decide (SweepNotification.mk .dueToday u.id
              = SweepNotification.mk .overdue t.id)
            && assigneeTruthy u) && dueTodayPred today u) = 0 := by
        rw [List.countP_eq_zero]
        intro v _ hv
        simp at hv
      have h2 := countP_map_nodup (fun u => u.id) tasks t
        (fun u => (decide (SweepNotification.mk .overdue u.id
            = SweepNotification.mk .overdue t.id)
          && assigneeTruthy u) && overduePred today u) hnd ht
        (by intro b _ hb; simp at hb; exact hb.1.1)
      rw [h1, h2]
      simp [hover]
    · have hcond : ((dueTodayPred today t || overduePred today t)
          && assigneeTruthy t) = true := by
        simp [dueTodayPred, hq, ha, hn, hd]
      have := List.mem_map_of_mem (fun u =>
        if (dueTodayPred today u || overduePred today u) && assigneeTruthy u
        then { u with lastNotificationSentAt := some now } else u) ht
      simp only [check_due_tasks]
      simpa [hcond] using this
  · intro hq ha hn hd
    have hdue : dueDateIsToday today t = false := by
      by_contra hc
      rw [Bool.not_eq_false] at hc
      rw [due_today_not_before_start today t hc] at hd
      cases hd
    refine ⟨?_, ?_, ?_⟩
    · rw [countP_check_due_tasks]
      have h1 : tasks.countP
          (fun u => (decide (SweepNotification.mk .dueToday u.id
              = SweepNotification.mk .overdue t.id)
            && assigneeTruthy u) && dueTodayPred today u) = 0 := by
        rw [List.countP_eq_zero]
        intro v _ hv
        simp at hv
      have h2 := countP_map_nodup (fun u => u.id) tasks t
        (fun u => (decide (SweepNotification.mk .overdue u.id
            = SweepNotification.mk .overdue t.id)
          && assigneeTruthy u) && overduePred today u) hnd ht
        (by intro b _ hb; simp at hb; exact hb.1.1)
      rw [h1, h2]
      simp [overduePred, hq, ha, hn, hd]
    · rw [countP_check_due_tasks]
      have h1 := countP_map_nodup (fun u => u.id) tasks t
        (fun u => (decide (SweepNotification.mk .dueToday u.id
            = SweepNotification.mk .dueToday t.id)
          && assigneeTruthy u) && dueTodayPred today u) hnd ht
        (by intro b _ hb; simp at hb; exact hb.1.1)
      have h2 : tasks.countP
          (fun u => (decide (SweepNotification.mk .overdue u.id
              = SweepNotification.mk .dueToday t.id)
            && assigneeTruthy u) && overduePred today u) = 0 := by
        rw [List.countP_eq_zero]
        intro v _ hv
        simp at hv
      rw [h1, h2]
      simp [dueTodayPred, hdue]
    · have hcond : ((dueTodayPred today t || overduePred today t)
          && assigneeTruthy t) = true := by
        simp [overduePred, hq, ha, hn, hd]
      have := List.mem_map_of_mem (fun u =>
        if (dueTodayPred today u || overduePred today u) && assigneeTruthy u
        then { u with lastNotificationSentAt := some now } else u) ht
      simp only [check_due_tasks]
      simpa [hcond] using this

/-- C4 witness: a single task due today with no prior notification receives
exactly one due-today email. -/
theorem check_due_tasks_notifications_witness :
    (check_due_tasks 20000 ⟨20000, 60⟩
        [SweepTask.mk 1 (some ⟨20000, 3600⟩) "not_started"
          (some "a@b.com") none]).1.countP
      (fun n => n = SweepNotification.mk .dueToday 1) = 1 := by
  have h := (check_due_tasks_notifications 20000 ⟨20000, 60⟩
      [SweepTask.mk 1 (some ⟨20000, 3600⟩) "not_started" (some "a@b.com") none]
      (SweepTask.mk 1 (some ⟨20000, 3600⟩) "not_started" (some "a@b.com") none)
      (by decide) (List.mem_singleton_self _)).2.1
    (by decide) (by decide) (by decide) (by decide)
  exact h.1

/-! ## Base 1 extraction business-name inference (`tools/base1.py`,
`run_extraction`).  The per-document heuristic extraction reads PDF content
(external input), so the inference step is modelled as a function of the list
of inferred names, in document order, exactly as the tail of
`run_extraction` consumes `extracted_business_names`.
`collections.Counter(l).most_common(1)[0][0]` is the first-inserted key of
maximal multiplicity. -/

/-- Insertion-ordered distinct keys of a `Counter` built from `l`. -/
def counterKeys (l : List String) : List String :=
  l.foldl (fun acc s => if s ∈ acc then acc else acc ++ [s]) []

/-- Value of `Counter(l).most_common(1)[0][0]`: among the insertion-ordered keys, the
first one of maximal count (`most_common` sorts by count, descending,
stably). -/
def mostCommon1 (l : List String) : Option String :=
  (counterKeys l).foldl (fun best k =>
    match best with
    | none => some k
    | some b => if l.count b < l.count k then some k else best) none

/-- Python truthiness of `run.get("business_name")`. -/
def pyTruthyStrOpt : Option String → Bool
  | none => false
  | some s => s ≠ ""

/-- The business-name update at the end of `run_extraction`: when at least
one name was inferred and the run has no (truthy) business name, adopt the
most common name if several were inferred, else the single one. -/
def run_extraction_business_name (current : Option String)
    (names : List String) : Option String :=
  if names ≠ [] ∧ pyTruthyStrOpt current = false then
    if 1 < names.length then mostCommon1 names else names.head?
  else current

theorem counterKeys_fold_mono (l : List String) :
    ∀ (acc : List String) (x : String), x ∈ acc →
      x ∈ l.foldl (fun acc s => if s ∈ acc then acc else acc ++ [s]) acc := by
  induction l with
  | nil => intro acc x hx; exact hx
  | cons s rest ih =>
    intro acc x hx
    simp only [List.foldl_cons]
    by_cases hs : s ∈ acc
    · simp only [hs, if_true]
      exact ih acc x hx
    · simp only [hs, if_false]
      exact ih _ x (List.mem_append_left _ hx)

theorem mem_counterKeys_fold (l : List String) :
    ∀ (acc : List String) (x : String), x ∈ l →
      x ∈ l.foldl (fun acc s => if s ∈ acc then acc else acc ++ [s]) acc := by
  induction l with
  | nil => intro acc x hx; cases hx
  | cons s rest ih =>
    intro acc x hx
    simp only [List.foldl_cons]
    rcases List.mem_cons.mp hx with rfl | hmem
    · by_cases hs : x ∈ acc
      · simp only [hs, if_true]
        exact counterKeys_fold_mono rest acc x hs
      · simp only [hs, if_false]
        exact counterKeys_fold_mono rest _ x
          (List.mem_append_right _ (List.mem_singleton_self x))
    · by_cases hs : s ∈ acc <;> simp only [hs, if_true, if_false] <;>
        exact ih _ x hmem

theorem counterKeys_fold_subset (l : List String) :
    ∀ (acc : List String) (x : String),
      x ∈ l.foldl (fun acc s => if s ∈ acc then acc else acc ++ [s]) acc →
      x ∈ acc ∨ x ∈ l := by
  induction l with
  | nil => intro acc x hx; exact Or.inl hx
  | cons s rest ih =>
    intro acc x hx
    simp only [List.foldl_cons] at hx
    by_cases hs : s ∈ acc
    · simp only [hs, if_true] at hx
      rcases ih acc x hx with h | h
      · exact Or.inl h
      · exact Or.inr (List.mem_cons_of_mem s h)
    · simp only [hs, if_false] at hx
      rcases ih _ x hx with h | h
      · rcases List.mem_append.mp h with h2 | h2
        · exact Or.inl h2
        · exact Or.inr (List.mem_cons.mpr (Or.inl (List.mem_singleton.mp h2)))
      · exact Or.inr (List.mem_cons_of_mem s h)

theorem mostCommon1_fold_spec (l : List String) :
    ∀ (keys : List String) (acc : Option String) (m : String),
      keys.foldl (fun best k =>
        match best with
        | none => some k
        | some b => if l.count b < l.count k then some k else best) acc
        = some m →
      ((∀ k ∈ keys, l.count k ≤ l.count m)
        ∧ (∀ b, acc = some b → l.count b ≤ l.count m)
        ∧ (acc = some m ∨ m ∈ keys)) := by
  intro keys
  induction keys with
  | nil =>
    intro acc m h
    simp only [List.foldl_nil] at h
    exact ⟨fun k hk => absurd hk (List.not_mem_nil k),
      fun b hb => by rw [h] at hb; cases hb; exact le_refl _,
      Or.inl h⟩
  | cons k rest ih =>
    intro acc m h
    simp only [List.foldl_cons] at h
    cases acc with
    | none =>
      obtain ⟨h1, h2, h3⟩ := ih (some k) m h
      refine ⟨?_, ?_, ?_⟩
      · intro k2 hk2
        rcases List.mem_cons.mp hk2 with rfl | hmem
        · exact h2 k2 rfl
        · exact h1 k2 hmem
      · intro b hb
        cases hb
      · rcases h3 with h3 | h3
        · cases h3; exact Or.inr (List.mem_cons_self _ _)
        · exact Or.inr (List.mem_cons_of_mem _ h3)
    | some b =>
      by_cases hcmp : l.count b < l.count k
      · simp only [hcmp, if_true] at h
        obtain ⟨h1, h2, h3⟩ := ih (some k) m h
        have hk : l.count k ≤ l.count m := h2 k rfl
        refine ⟨?_, ?_, ?_⟩
        · intro k2 hk2
          rcases List.mem_cons.mp hk2 with rfl | hmem
          · exact hk
          · exact h1 k2 hmem
        · intro b2 hb2
          cases hb2
          exact le_trans (le_of_lt hcmp) hk
        · rcases h3 with h3 | h3
          · cases h3; exact Or.inr (List.mem_cons_self _ _)
          · exact Or.inr (List.mem_cons_of_mem _ h3)
      · simp only [hcmp, if_false] at h
        obtain ⟨h1, h2, h3⟩ := ih (some b) m h
        have hb : l.count b ≤ l.count m := h2 b rfl
        refine ⟨?_, ?_, ?_⟩
        · intro k2 hk2
          rcases List.mem_cons.mp hk2 with rfl | hmem
          · exact le_trans (le_of_not_lt hcmp) hb
          · exact h1 k2 hmem
        · intro b2 hb2
          cases hb2
          exact hb
        · rcases h3 with h3 | h3
          · exact Or.inl h3
          · exact Or.inr (List.mem_cons_of_mem _ h3)

theorem mostCommon1_maximal (l : List String) (m : String)
    (h : mostCommon1 l = some m) :
    m ∈ l ∧ ∀ x ∈ l, l.count x ≤ l.count m := by
  obtain ⟨h1, _, h3⟩ := mostCommon1_fold_spec l (counterKeys l) none m h
  constructor
  · rcases h3 with h3 | h3
    · cases h3
    · rcases counterKeys_fold_subset l [] m h3 with h4 | h4
      · cases h4
      · exact h4
  · intro x hx
    exact h1 x (mem_counterKeys_fold l [] x hx)

/-- C7: with no business name on the run, a single inferred name is adopted
exactly; several inferred names yield a name from the list of maximal
multiplicity; the Acme/Acme/Other example yields Acme. -/
theorem run_extraction_business_name_inference :
    (∀ (current : Option String) (n : String),
      pyTruthyStrOpt current = false →
        run_extraction_business_name current [n] = some n)
    ∧ (∀ (current : Option String) (names : List String) (m : String),
        pyTruthyStrOpt current = false → 1 < names.length →
        run_extraction_business_name current names = some m →
          m ∈ names ∧ ∀ x ∈ names, names.count x ≤ names.count m)
    ∧ run_extraction_business_name none
        ["Acme Pty Ltd", "Acme Pty Ltd", "Other Co"] = some "Acme Pty Ltd" := by
  refine ⟨?_, ?_, by decide⟩
  · intro current n hcur
    simp [run_extraction_business_name, hcur]
  · intro current names m hcur hlen h
    have hne : names ≠ [] := by
      intro he
      rw [he] at hlen
      simp at hlen
    rw [run_extraction_business_name, if_pos ⟨hne, hcur⟩, if_pos hlen] at h
    exact mostCommon1_maximal names m h

/-- C7 witness: both quantified branches instantiated concretely. -/
theorem run_extraction_business_name_inference_witness :
    (run_extraction_business_name (some "") ["Sole Trader Co"]
      = some "Sole Trader Co")
    ∧ ("Acme Pty Ltd" ∈ ["Acme Pty Ltd", "Other Co", "Acme Pty Ltd"]
        ∧ ∀ x ∈ ["Acme Pty Ltd", "Other Co", "Acme Pty Ltd"],
          List.count x ["Acme Pty Ltd", "Other Co", "Acme Pty Ltd"]
            ≤ List.count "Acme Pty Ltd"
                ["Acme Pty Ltd", "Other Co", "Acme Pty Ltd"]) :=
  ⟨run_extraction_business_name_inference.1 (some "") "Sole Trader Co"
      (by decide),
   run_extraction_business_name_inference.2.1 none
      ["Acme Pty Ltd", "Other Co", "Acme Pty Ltd"] "Acme Pty Ltd"
      (by decide) (by decide) (by decide)⟩

/-! ## Invoice-history due-date parsing (`tools/one_month_savings.py`,
`get_invoice_history`).  Python `datetime` dates are modelled as day
ordinals relative to 1970-01-01; `civilFromDays`/`daysFromCivil` are the
standard proleptic-Gregorian conversions that `datetime` arithmetic and
`strftime` realise. -/

/-- Proleptic-Gregorian (year, month, day) to days since 1970-01-01. -/
def daysFromCivil (y m d : Int) : Int :=
  let y2 := if m ≤ 2 then y - 1 else y
  let era := y2.fdiv 400
  let yoe := y2 - era * 400
  let doy := (153 * (if 2 < m then m - 3 else m + 9) + 2).fdiv 5 + d - 1
  let doe := yoe * 365 + yoe.fdiv 4 - yoe.fdiv 100 + doy
  era * 146097 + doe - 719468

/-- Days since 1970-01-01 to proleptic-Gregorian (year, month, day). -/
def civilFromDays (z : Int) : Int × Int × Int :=
  let z2 := z + 719468
  let era := z2.fdiv 146097
  let doe := z2 - era * 146097
  let yoe := (doe - doe.fdiv 1460 + doe.fdiv 36524 - doe.fdiv 146096).fdiv 365
  let y := yoe + era * 400
  let doy := doe - (365 * yoe + yoe.fdiv 4 - yoe.fdiv 100)
  let mp := (5 * doy + 2).fdiv 153
  let d := doy - (153 * mp + 2).fdiv 5 + 1
  let m := if mp < 10 then mp + 3 else mp - 9
  (if m ≤ 2 then y + 1 else y, m, d)

/-- Format `f"{n:02d}"` for the month/day fields of `%m`/`%d`. -/
def padDecimal2 (n : Nat) : String :=
  ⟨List.replicate (2 - (natDecimal n).length) '0' ++ (natDecimal n).data⟩

/-- Rendering `strftime("%Y-%m-%d")` of the date that is `z` days after 1970-01-01
(all dates involved have positive years, so `%Y` is the 4-padded year). -/
def renderDateYmd (z : Int) : String :=
  let ymd := civilFromDays z
  padDecimal4 ymd.1.toNat ++ "-" ++ padDecimal2 ymd.2.1.toNat
    ++ "-" ++ padDecimal2 ymd.2.2.toNat

/-- A due-date cell of column G as surfaced by the Sheets API: absent, a
native serial number (whole-valued; `int()` truncation of fractional serials
is not exercised by the ledger), or a literal string. -/
inductive DueDateCell where
  | missing : DueDateCell
  | num (n : Int) : DueDateCell
  | str (s : String) : DueDateCell
deriving DecidableEq, Repr

/-- The due-date normalisation of `get_invoice_history`: empty for a missing
cell, `datetime(1899, 12, 30) + timedelta(days=int(raw) - 2)` rendered
`%Y-%m-%d` for a numeric cell, `str(raw).strip()` for a string cell. -/
def get_invoice_history_due_date : DueDateCell → String
  | .missing => ""
  | .num n => renderDateYmd (daysFromCivil 1899 12 30 + (n - 2))
  | .str s => pyStrip s

/-- C9 counterexample: a literal date string carrying surrounding whitespace
is not passed through unchanged — `get_invoice_history` strips it. -/
theorem get_invoice_history_due_date_strips_strings :
    get_invoice_history_due_date (.str "14/02/2031 ") = "14/02/2031"
    ∧ get_invoice_history_due_date (.str "14/02/2031 ") ≠ "14/02/2031 " := by
  constructor
  · decide
  · decide

/-- C9 (amended): a numeric serial `n` becomes the calendar date
`1899-12-30` plus `n - 2` days rendered `YYYY-MM-DD` (checked concretely:
the epoch ordinal, serial 2 and serial 45292, and a round trip of the
calendar conversions), and a literal date string is passed through with
surrounding whitespace stripped. -/
theorem get_invoice_history_due_date_conversion :
    (∀ n : Int, get_invoice_history_due_date (.num n)
      = renderDateYmd (daysFromCivil 1899 12 30 + (n - 2)))
    ∧ daysFromCivil 1899 12 30 = -25569
    ∧ get_invoice_history_due_date (.num 2) = "1899-12-30"
    ∧ get_invoice_history_due_date (.num 45292) = "2023-12-30"
    ∧ civilFromDays (daysFromCivil 2024 1 1) = (2024, 1, 1)
    ∧ (∀ s : String, get_invoice_history_due_date (.str s) = pyStrip s) := by
  exact ⟨fun n => rfl, by decide, by decide, by decide, by decide, fun s => rfl⟩

/-! ## Base 1 document upload: `save_document` (`tools/base1.py`).
The JSON run index (`runs.json`) and the per-run `documents/` directory
listings are explicit state; UUIDs, timestamps and the PyPDF2 page count
(caught-exception best effort) are not modelled as the claims do not
mention them.  File writes always succeed once validation passes. -/

def MAX_FILE_SIZE : Nat := 20 * 1024 * 1024

/-- One entry of a run's `documents` list. -/
structure DocRecord where
  filename : String
  savedFilename : String
  sizeBytes : Nat
  status : String
deriving DecidableEq, Repr

/-- The fields of one run relevant to uploads. -/
structure Base1Run where
  businessName : Option String
  documents : List DocRecord
deriving DecidableEq, Repr

/-- Persistent Base 1 state: the run index file and the on-disk
`documents/` listing of each run. -/
structure Base1State where
  runs : List (String × Base1Run)
  dirs : List (String × List String)
deriving DecidableEq, Repr

def assocFind? {α : Type} (l : List (String × α)) (k : String) : Option α :=
  (l.find? (fun kv => kv.1 = k)).map (fun kv => kv.2)

def assocSet {α : Type} (l : List (String × α)) (k : String) (v : α) :
    List (String × α) :=
  if (l.find? (fun kv => kv.1 = k)).isSome then
    l.map (fun kv => if kv.1 = k then (kv.1, v) else kv)
  else l ++ [(k, v)]

/-- Sanitization `"".join(c for c in filename if c.isalnum() or c in "._- ")` (ASCII
alphanumerics; the filenames exercised are ASCII). -/
def sanitizeFilename (s : String) : String :=
  ⟨s.data.filter (fun c => c.isAlphanum ∨ c = '.' ∨ c = '_' ∨ c = '-' ∨ c = ' ')⟩

/-- The `pathlib` stem/suffix split: split at the last dot, except a dot that is the
first character (a bare suffix-less dotfile). -/
def splitExt (name : String) : String × String :=
  let cs := name.data
  let revc := cs.reverse
  if '.' ∈ revc then
    let idx := revc.indexOf '.'
    if idx + 1 = cs.length then (name, "")
    else (⟨cs.take (cs.length - idx - 1)⟩, ⟨cs.drop (cs.length - idx - 1)⟩)
  else (name, "")

/-- Suffix test on strings (`str.endswith`). -/
def strEndsWith (s post : String) : Bool :=
  s.data.reverse.take post.data.length = post.data.reverse

/-- Validation test `filename.lower().endswith('.pdf')`. -/
def isPdfFilename (filename : String) : Bool :=
  strEndsWith (asciiLower filename) ".pdf"

/-- Candidate `f"{stem}_{counter}{suffix}"`. -/
def candidateName (stem suffix : String) (k : Nat) : String :=
  stem ++ "_" ++ natDecimal k ++ suffix

/-- The duplicate-filename loop: keep the sanitized name if free, else the
first free `stem_k.suffix` for `k = 1, 2, …` (searching `|dir| + 1`
candidates always reaches a free one). -/
def resolveCollisionName (dirFiles : List String) (base : String) : String :=
  if base ∈ dirFiles then
    match (List.range (dirFiles.length + 1)).findSome? (fun i =>
        if candidateName (splitExt base).1 (splitExt base).2 (i + 1) ∈ dirFiles
        then none
        else some (candidateName (splitExt base).1 (splitExt base).2 (i + 1)))
      with
    | some c => c
    | none => base
  else base

/-- Function `save_document(run_id, filename, file_bytes)`: validate run existence,
size cap and PDF extension (raising leaves the state untouched), then write
the file under a collision-free sanitized name and append the document
record to the run index. -/
def save_document (st : Base1State) (run_id filename : String)
    (fileSize : Nat) : Base1State × Except String DocRecord :=
  match assocFind? st.runs run_id with
  | none => (st, .error ("Run " ++ run_id ++ " not found"))
  | some run =>
    if MAX_FILE_SIZE < fileSize then
      (st, .error ("File " ++ filename ++ " exceeds maximum size"))
    else if isPdfFilename filename = false then
      (st, .error ("File " ++ filename ++ " is not a PDF"))
    else
      let dirFiles := (assocFind? st.dirs run_id).getD []
      let savedName := resolveCollisionName dirFiles (sanitizeFilename filename)
      let docRec := DocRecord.mk filename savedName fileSize "uploaded"
      (Base1State.mk
        (assocSet st.runs run_id
          { run with documents := run.documents ++ [docRec] })
        (assocSet st.dirs run_id (dirFiles ++ [savedName])),
       .ok docRec)

/-- The on-disk listing of a run's `documents/` directory. -/
def dirFilesOf (st : Base1State) (run_id : String) : List String :=
  (assocFind? st.dirs run_id).getD []

theorem findSome?_none_forall {α β : Type} (f : α → Option β) :
    ∀ (l : List α), l.findSome? f = none → ∀ x ∈ l, f x = none := by
  intro l
  induction l with
  | nil => intro _ x hx; cases hx
  | cons a rest ih =>
    intro h x hx
    rw [List.findSome?_cons] at h
    rcases List.mem_cons.mp hx with rfl | hmem
    · cases hfa : f x with
      | none => rfl
      | some b => rw [hfa] at h; cases h
    · cases hfa : f a with
      | none => rw [hfa] at h; exact ih h x hmem
      | some b => rw [hfa] at h; cases h

theorem findSome?_some_exists {α β : Type} (f : α → Option β) :
    ∀ (l : List α) (b : β), l.findSome? f = some b → ∃ a ∈ l, f a = some b := by
  intro l
  induction l with
  | nil => intro b h; cases h
  | cons a rest ih =>
    intro b h
    rw [List.findSome?_cons] at h
    cases hfa : f a with
    | none =>
      rw [hfa] at h
      obtain ⟨a2, ha2, hfa2⟩ := ih b h
      exact ⟨a2, List.mem_cons_of_mem _ ha2, hfa2⟩
    | some b2 =>
      rw [hfa] at h
      cases h
      exact ⟨a, List.mem_cons_self _ _, hfa⟩

theorem candidateName_injective (stem suffix : String) :
    Function.Injective (fun k => candidateName stem suffix k) := by
  intro a b h
  simp only [candidateName] at h
  have hd := congrArg String.data h
  simp only [String.data_append] at hd
  have h1 := List.append_cancel_right hd
  have h2 := List.append_cancel_left h1
  exact natDecimal_injective (by
    apply congrArg String.mk
    simpa using h2)

theorem resolveCollisionName_not_mem (dirFiles : List String) (base : String) :
    resolveCollisionName dirFiles base ∉ dirFiles := by
  unfold resolveCollisionName
  by_cases hb : base ∈ dirFiles
  · simp only [hb, if_true]
    cases hfs : (List.range (dirFiles.length + 1)).findSome? (fun i =>
        if candidateName (splitExt base).1 (splitExt base).2 (i + 1) ∈ dirFiles
        then none
        else some (candidateName (splitExt base).1 (splitExt base).2 (i + 1)))
      with
    | some c =>
      obtain ⟨i, _, hfi⟩ := findSome?_some_exists _ _ _ hfs
      by_cases hc : candidateName (splitExt base).1 (splitExt base).2 (i + 1)
          ∈ dirFiles
      · rw [if_pos hc] at hfi
        cases hfi
      · rw [if_neg hc] at hfi
        injection hfi with hfi
        rw [← hfi]
        exact hc
    | none =>
      exfalso
      have hall : ∀ i ∈ List.range (dirFiles.length + 1),
          candidateName (splitExt base).1 (splitExt base).2 (i + 1)
            ∈ dirFiles := by
        intro i hi
        have := findSome?_none_forall _ _ hfs i hi
        by_cases hc : candidateName (splitExt base).1 (splitExt base).2 (i + 1)
            ∈ dirFiles
        · exact hc
        · rw [if_neg hc] at this
          cases this
      have hinj : Function.Injective
          (fun i => candidateName (splitExt base).1 (splitExt base).2 (i + 1)) :=
        fun x y hxy => by
          have := candidateName_injective (splitExt base).1 (splitExt base).2 hxy
          omega
      have hnd : ((List.range (dirFiles.length + 1)).map
          (fun i => candidateName (splitExt base).1 (splitExt base).2 (i + 1))).Nodup :=
        (List.nodup_range _).map hinj
      have hsub : ∀ x ∈ (List.range (dirFiles.length + 1)).map
          (fun i => candidateName (splitExt base).1 (splitExt base).2 (i + 1)),
          x ∈ dirFiles := by
        intro x hx
        obtain ⟨i, hi, rfl⟩ := List.mem_map.mp hx
        exact hall i hi
      have h1 := List.toFinset_card_of_nodup hnd
      have h2 : ((List.range (dirFiles.length + 1)).map
          (fun i => candidateName (splitExt base).1 (splitExt base).2 (i + 1))).toFinset
            ⊆ dirFiles.toFinset := by
        intro x hx
        exact List.mem_toFinset.mpr (hsub x (List.mem_toFinset.mp hx))
      have h3 := Finset.card_le_card h2
      have h4 := List.toFinset_card_le dirFiles
      rw [h1] at h3
      simp only [List.length_map, List.length_range] at h3
      omega
  · simp only [hb, if_false]
    exact not_false

/-- Whether a call raised (the `Except.error` side). -/
def exceptIsError {ε α : Type} : Except ε α → Bool
  | .error _ => true
  | .ok _ => false

theorem assocFind?_mapUpdate {α : Type} (l : List (String × α)) (k : String)
    (v : α) :
    assocFind? (l.map (fun kv => if kv.1 = k then (kv.1, v) else kv)) k
      = (assocFind? l k).map (fun _ => v) := by
  induction l with
  | nil => rfl
  | cons kv rest ih =>
    unfold assocFind? at ih ⊢
    rw [List.map_cons]
    by_cases hk : kv.1 = k
    · rw [if_pos hk, List.find?_cons_of_pos _ (by simp [hk]),
        List.find?_cons_of_pos _ (by simp [hk])]
      simp
    · rw [if_neg hk, List.find?_cons_of_neg _ (by simp [hk]),
        List.find?_cons_of_neg _ (by simp [hk])]
      exact ih

theorem assocFind?_appendSingle {α : Type} (l : List (String × α)) (k : String)
    (v : α) (h : l.find? (fun kv => kv.1 = k) = none) :
    assocFind? (l ++ [(k, v)]) k = some v := by
  induction l with
  | nil => simp [assocFind?]
  | cons kv rest ih =>
    rw [List.find?_cons] at h
    unfold assocFind?
    by_cases hk : kv.1 = k
    · simp [hk] at h
    · rw [List.cons_append, List.find?_cons_of_neg _ (by simp [hk])]
      exact ih (by simpa [hk] using h)

theorem assocFind?_assocSet {α : Type} (l : List (String × α)) (k : String)
    (v : α) : assocFind? (assocSet l k v) k = some v := by
  unfold assocSet
  by_cases h : (l.find? (fun kv => kv.1 = k)).isSome
  · rw [if_pos h, assocFind?_mapUpdate]
    obtain ⟨kv, hkv⟩ := Option.isSome_iff_exists.mp h
    unfold assocFind?
    rw [hkv]
    rfl
  · rw [if_neg h]
    exact assocFind?_appendSingle l k v (Option.not_isSome_iff_eq_none.mp h)

/-- A one-run state with nothing uploaded yet, used by the concrete upload
scenarios. -/
def base1TestState : Base1State :=
  Base1State.mk [("r1", Base1Run.mk none [])] [("r1", [])]

/-- C6: `save_document` raises exactly for an unknown run, a payload over
20 MiB, or a non-`.pdf` filename (case-insensitive); a successful save
stores the file under a name absent from the run's directory, appending it
to the directory listing, and two same-named uploads land as `invoice.pdf`
then `invoice_1.pdf`. -/
theorem save_document_validation :
    (∀ (st : Base1State) (rid fn : String) (size : Nat),
      exceptIsError (save_document st rid fn size).2 = true
        ↔ (assocFind? st.runs rid = none ∨ MAX_FILE_SIZE < size
            ∨ isPdfFilename fn = false))
    ∧ (∀ (st : Base1State) (rid fn : String) (size : Nat) (st' : Base1State)
        (d : DocRecord),
        save_document st rid fn size = (st', Except.ok d) →
          d.savedFilename ∉ dirFilesOf st rid
          ∧ dirFilesOf st' rid = dirFilesOf st rid ++ [d.savedFilename])
    ∧ dirFilesOf (save_document
        (save_document base1TestState "r1" "invoice.pdf" 100).1
        "r1" "invoice.pdf" 100).1 "r1" = ["invoice.pdf", "invoice_1.pdf"]
    ∧ exceptIsError (save_document base1TestState "rX" "invoice.pdf" 100).2
        = true
    ∧ exceptIsError (save_document base1TestState "r1" "notes.docx" 100).2
        = true
    ∧ exceptIsError (save_document base1TestState "r1" "big.pdf"
        (21 * 1024 * 1024)).2 = true
    ∧ exceptIsError (save_document base1TestState "r1" "invoice.pdf" 100).2
        = false := by
  refine ⟨?_, ?_, by decide, by decide, by decide, by decide, by decide⟩
  · intro st rid fn size
    unfold save_document
    cases hfind : assocFind? st.runs rid with
    | none => simp [exceptIsError]
    | some run =>
      by_cases hsz : MAX_FILE_SIZE < size
      · simp [hsz, exceptIsError]
      · by_cases hpdf : isPdfFilename fn = false
        · simp [hsz, hpdf, exceptIsError]
        · simp [hsz, hpdf, exceptIsError]
  · intro st rid fn size st' d h
    unfold save_document at h
    cases hfind : assocFind? st.runs rid with
    | none =>
      rw [hfind] at h
      have := congrArg Prod.snd h
      simp [exceptIsError] at this
    | some run =>
      rw [hfind] at h
      dsimp only at h
      by_cases hsz : MAX_FILE_SIZE < size
      · rw [if_pos hsz] at h
        have := congrArg Prod.snd h
        simp at this
      · rw [if_neg hsz] at h
        by_cases hpdf : isPdfFilename fn = false
        · rw [if_pos hpdf] at h
          have := congrArg Prod.snd h
          simp at this
        · rw [if_neg hpdf] at h
          have h1 := congrArg Prod.fst h
          have h2 := congrArg Prod.snd h
          simp only [Prod.fst, Prod.snd] at h1 h2
          rw [Except.ok.injEq] at h2
          constructor
          · rw [← h2]
            exact resolveCollisionName_not_mem _ _
          · rw [← h1, ← h2]
            unfold dirFilesOf
            simp only [assocFind?_assocSet]
            rfl

/-- C6 witness: the success clause discharged on the first upload into the
fresh test state. -/
theorem save_document_validation_witness :
    ("invoice.pdf" : String) ∉ dirFilesOf base1TestState "r1"
    ∧ dirFilesOf (save_document base1TestState "r1" "invoice.pdf" 100).1 "r1"
        = dirFilesOf base1TestState "r1" ++ ["invoice.pdf"] :=
  save_document_validation.2.1 base1TestState "r1" "invoice.pdf" 100
    (save_document base1TestState "r1" "invoice.pdf" 100).1
    (DocRecord.mk "invoice.pdf" "invoice.pdf" 100 "uploaded") rfl

/-- C10: whenever `save_document` raises a validation error, the run index
and every on-disk directory listing are exactly as before the call. -/
theorem save_document_rejection_keeps_state :
    ∀ (st : Base1State) (rid fn : String) (size : Nat),
      exceptIsError (save_document st rid fn size).2 = true →
        (save_document st rid fn size).1 = st := by
  intro st rid fn size h
  unfold save_document at h ⊢
  cases hfind : assocFind? st.runs rid with
  | none => rfl
  | some run =>
    rw [hfind] at h
    dsimp only at h ⊢
    by_cases hsz : MAX_FILE_SIZE < size
    · rw [if_pos hsz]
    · rw [if_neg hsz] at h ⊢
      by_cases hpdf : isPdfFilename fn = false
      · rw [if_pos hpdf]
      · rw [if_neg hpdf] at h
        simp [exceptIsError] at h

/-- C10 witness: an unknown-run rejection leaves the state untouched. -/
theorem save_document_rejection_keeps_state_witness :
    (save_document base1TestState "rX" "invoice.pdf" 100).1
      = base1TestState :=
  save_document_rejection_keeps_state base1TestState "rX" "invoice.pdf" 100
    (by decide)
